import Mathlib

/-!
Shallow embedding of the `PyDeque` bounded double-ended queue from
`src/vm/src/stdlib/collections.rs`.

Modelling choices:
* The element type `PyObjectRef` (an opaque, host-owned handle) is a type
  parameter `α`; witnesses instantiate it with `Nat`.
* `RefCell<VecDeque<PyObjectRef>>` becomes a plain `List α` with explicit
  state passing: `VecDeque::push_back l x` is `l ++ [x]`, `push_front` is
  `x :: l`, `pop_front` on a list is `tail` (a no-op on `[]`, exactly like
  `VecDeque::pop_front` returning `None`), `pop_back` is `dropLast`.
* `usize` arithmetic is `Nat`; the two unguarded `usize` subtractions in the
  source (`deque.len() - 1` in `insert`, `stop - start` in `index`) are
  embedded totally: the underflowing branch returns
  `DequeError.usizeUnderflow` instead of wrapping.
* Fallible methods return `Except DequeError`; `pop`/`popleft` additionally
  return the post-state, since the Rust methods mutate in place.
-/

namespace RustPythonCollections

/-- Error outcomes of the deque methods.  `emptyPop`, `maxSize` and
`notInDeque` correspond to the `IndexError`/`ValueError` values raised in the
source; `usizeUnderflow` marks the two spots where the source performs an
unguarded `usize` subtraction that underflows (a panic in Rust). -/
inductive DequeError where
  | emptyPop
  | maxSize
  | notInDeque
  | usizeUnderflow
deriving DecidableEq, Repr

/-- The `PyDeque` struct: field `deque` is the element sequence
(`RefCell<VecDeque<PyObjectRef>>` in the source), `maxlen` the optional
bound. -/
@[ext]
structure PyDeque (α : Type) where
  deque : List α
  maxlen : Option Nat
deriving DecidableEq, Repr

namespace PyDeque

variable {α : Type}

/-- `PyDeque::new`: collects the optional source iterable (here: an optional
list, iteration failures of the host are outside the embedding) and stores
`maxlen.into_option().and_then(|x| x)`.  The bound is NOT enforced here: the
whole input is copied. -/
def new (iter : Option (List α)) (maxlen : Option (Option Nat)) : PyDeque α :=
  { deque := iter.getD [], maxlen := maxlen.bind id }

/-- `PyDeque::append`: if a bound is set and `len == maxlen`, `pop_front`
(no-op on an empty deque) before `push_back`. -/
def append (d : PyDeque α) (obj : α) : PyDeque α :=
  let deque :=
    match d.maxlen with
    | some maxlen => if d.deque.length = maxlen then d.deque.tail else d.deque
    | none => d.deque
  { deque := deque ++ [obj], maxlen := d.maxlen }

/-- `PyDeque::appendleft`: if a bound is set and `len == maxlen`, `pop_back`
(no-op on an empty deque) before `push_front`. -/
def appendleft (d : PyDeque α) (obj : α) : PyDeque α :=
  let deque :=
    match d.maxlen with
    | some maxlen => if d.deque.length = maxlen then d.deque.dropLast else d.deque
    | none => d.deque
  { deque := obj :: deque, maxlen := d.maxlen }

/-- `PyDeque::pop`: `pop_back()`, erroring on an empty deque.  Returns the
result together with the post-state. -/
def pop (d : PyDeque α) : Except DequeError α × PyDeque α :=
  match d.deque.getLast? with
  | some x => (Except.ok x, { d with deque := d.deque.dropLast })
  | none => (Except.error DequeError.emptyPop, d)

/-- `PyDeque::popleft`: `pop_front()`, erroring on an empty deque.  Returns
the result together with the post-state. -/
def popleft (d : PyDeque α) : Except DequeError α × PyDeque α :=
  match d.deque with
  | x :: rest => (Except.ok x, { d with deque := rest })
  | [] => (Except.error DequeError.emptyPop, d)

/-- The index-resolution block of `PyDeque::insert`.  For a negative `idx`,
`-idx as usize > len` clamps to `0`, otherwise the position is
`len - (-idx as usize)`.  For a non-negative `idx` at or past `len` the source
computes `deque.len() - 1`, an unguarded `usize` subtraction: with `len = 0`
it underflows, embedded here as the `usizeUnderflow` error branch. -/
def resolveInsertIdx (len : Nat) (idx : Int) : Except DequeError Nat :=
  if idx < 0 then
    if (-idx).toNat > len then Except.ok 0
    else Except.ok (len - (-idx).toNat)
  else if idx.toNat ≥ len then
    if len = 0 then Except.error DequeError.usizeUnderflow
    else Except.ok (len - 1)
  else Except.ok idx.toNat

/-- `PyDeque::insert`: errors with "deque already at its maximum size" when a
bound is set and `len == maxlen`; otherwise resolves the signed index via
`resolveInsertIdx` and inserts at that position (`VecDeque::insert`). -/
def insert (d : PyDeque α) (idx : Int) (obj : α) : Except DequeError (PyDeque α) :=
  match d.maxlen with
  | some maxlen =>
      if d.deque.length = maxlen then Except.error DequeError.maxSize
      else do
        let i ← resolveInsertIdx d.deque.length idx
        Except.ok { d with deque := d.deque.insertIdx i obj }
  | none => do
      let i ← resolveInsertIdx d.deque.length idx
      Except.ok { d with deque := d.deque.insertIdx i obj }

/-- `PyDeque::index`: `start` defaults to `0`, `stop` to `len`; the window is
`iter().skip(start).take(stop - start)`, where `stop - start` is an unguarded
`usize` subtraction: with `stop < start` it underflows, embedded here as the
`usizeUnderflow` error branch.  The returned position is the enumeration
index relative to the window.  Host equality `vm._eq` is modelled by
decidable equality on `α`. -/
def index [DecidableEq α] (d : PyDeque α) (obj : α)
    (start stop : Option Nat) : Except DequeError Nat :=
  let start := start.getD 0
  let stop := stop.getD d.deque.length
  if stop < start then Except.error DequeError.usizeUnderflow
  else
    match ((d.deque.drop start).take (stop - start)).findIdx? (· == obj) with
    | some i => Except.ok i
    | none => Except.error DequeError.notInDeque

/-- One iteration of the non-negative `rotate` loop: `pop_back` then
`push_front` of the popped element, a no-op on an empty deque. -/
def rotateRightOnce (l : List α) : List α :=
  match l.getLast? with
  | some poppedBack => poppedBack :: l.dropLast
  | none => l

/-- One iteration of the negative `rotate` loop: `pop_front` then `push_back`
of the popped element, a no-op on an empty deque. -/
def rotateLeftOnce (l : List α) : List α :=
  match l with
  | poppedFront :: rest => rest ++ [poppedFront]
  | [] => l

/-- `PyDeque::rotate`: the optional amount defaults to `1`; a negative `mid`
runs the pop-front/push-back loop `-mid` times, otherwise the
pop-back/push-front loop runs `mid` times. -/
def rotate (d : PyDeque α) (mid : Option Int) : PyDeque α :=
  let mid := mid.getD 1
  if mid < 0 then { d with deque := rotateLeftOnce^[(-mid).toNat] d.deque }
  else { d with deque := rotateRightOnce^[mid.toNat] d.deque }

end PyDeque

/-- Modelled from the spec: `objsequence::seq_lt` is not under `src/` (only
its caller `PyDeque::lt` is).  Per the spec it performs lexicographic
comparison: walk both sequences in parallel, the first mismatching pair
determines the result, and a strict prefix is less than the longer sequence.
The host ordering hook is modelled by the order on `Nat`. -/
def seq_lt : List Nat → List Nat → Bool
  | [], [] => false
  | [], _ :: _ => true
  | _ :: _, [] => false
  | a :: l₁, b :: l₂ => if a < b then true else if b < a then false else seq_lt l₁ l₂

/-- `PyDeque::lt` (`__lt__`): the source begins with the identity shortcut
`if zelf.as_object().is(&other) { return Ok(vm.new_bool(true)); }`, modelled
by the `sameInstance` flag; otherwise it delegates to `objsequence::seq_lt`.
(The remaining branch, returning `NotImplemented` when `other` is not a
deque, is outside this embedding since `other` is typed.) -/
def PyDeque.lt (sameInstance : Bool) (zelf other : PyDeque Nat) : Bool :=
  if sameInstance then true
  else seq_lt zelf.deque other.deque

/-- A single push operation, for stating invariants over arbitrary sequences
of pushes. -/
inductive PushOp (α : Type) where
  | append (x : α)
  | appendleft (x : α)
deriving DecidableEq, Repr

/-- Apply one push operation. -/
def PyDeque.applyPush {α : Type} (d : PyDeque α) : PushOp α → PyDeque α
  | PushOp.append x => d.append x
  | PushOp.appendleft x => d.appendleft x

/-- Apply a sequence of push operations, left to right. -/
def PyDeque.applyPushes {α : Type} (d : PyDeque α) (ops : List (PushOp α)) : PyDeque α :=
  ops.foldl PyDeque.applyPush d

end RustPythonCollections

namespace RustPythonCollections

open PyDeque

/-- C5: constructing a deque from a source list `l` of `n` elements with bound
`b`, where `n` exceeds `b`, succeeds and keeps all `n` elements in order; the
bound is not enforced at construction time. -/
theorem c5_construction_ignores_bound {α : Type} (l : List α) (b : Nat)
    (h : l.length > b) :
    (PyDeque.new (some l) (some (some b))).deque = l ∧
    (PyDeque.new (some l) (some (some b))).maxlen = some b :=
  ⟨rfl, rfl⟩

/-- Witness for C5 at `l = [1, 2, 3]`, `b = 1`. -/
theorem c5_construction_ignores_bound_witness :
    ([1, 2, 3] : List Nat).length > 1 ∧
      ((PyDeque.new (some [1, 2, 3]) (some (some 1))).deque = [1, 2, 3] ∧
        (PyDeque.new (some ([1, 2, 3] : List Nat)) (some (some 1))).maxlen = some 1) :=
  ⟨by decide, c5_construction_ignores_bound [1, 2, 3] 1 (by decide)⟩

/-- C7: `pop` and `popleft` on an empty deque fail with the empty-pop error
and leave the state unchanged; on any non-empty deque they remove and return
the tail element and the head element respectively, never failing. -/
theorem c7_pop_popleft_contract {α : Type} (m : Option Nat) (x : α) (rest : List α) :
    PyDeque.pop (PyDeque.mk ([] : List α) m)
      = (Except.error DequeError.emptyPop, PyDeque.mk [] m) ∧
    PyDeque.popleft (PyDeque.mk ([] : List α) m)
      = (Except.error DequeError.emptyPop, PyDeque.mk [] m) ∧
    PyDeque.pop (PyDeque.mk (rest ++ [x]) m) = (Except.ok x, PyDeque.mk rest m) ∧
    PyDeque.popleft (PyDeque.mk (x :: rest) m) = (Except.ok x, PyDeque.mk rest m) := by
  refine ⟨rfl, rfl, ?_, rfl⟩
  simp [PyDeque.pop, List.getLast?_concat, List.dropLast_concat]

/-- C10: `rotate` with no argument defaults the amount to `1`, moving the
last element of any non-empty deque to the head. -/
theorem c10_rotate_default_one {α : Type} (m : Option Nat) (l rest : List α) (x : α) :
    (PyDeque.mk (rest ++ [x]) m).rotate none = PyDeque.mk (x :: rest) m ∧
    (PyDeque.mk l m).rotate none = (PyDeque.mk l m).rotate (some 1) := by
  constructor
  · simp [PyDeque.rotate, PyDeque.rotateRightOnce, List.getLast?_concat,
      List.dropLast_concat]
  · rfl

/-- C3 (code bug): `__lt__` invoked with both operands the very same deque
instance returns `true`, because the source applies the identity shortcut
`if zelf.as_object().is(&other) \x7b return true \x7d` to `__lt__` as well, not
just to the equality variants; lexicographic comparison of a sequence with
itself (the value the claim and the spec prescribe) is `false`. -/
theorem c3_lt_same_instance_returns_true :
    PyDeque.lt true (PyDeque.mk [1, 2, 3] none) (PyDeque.mk [1, 2, 3] none) = true ∧
    seq_lt [1, 2, 3] [1, 2, 3] = false := by
  decide

/-- C9: `index(value, start, stop)` with explicit `stop < start` hits the
unguarded `usize` subtraction `stop - start`: in the total embedding the
underflow error branch is taken, and the result is not the value-not-found
error. -/
theorem c9_index_stop_lt_start_underflows {α : Type} [DecidableEq α]
    (d : PyDeque α) (obj : α) (start stop : Nat) (h : stop < start) :
    d.index obj (some start) (some stop) = Except.error DequeError.usizeUnderflow ∧
    d.index obj (some start) (some stop) ≠ Except.error DequeError.notInDeque := by
  have he : d.index obj (some start) (some stop)
      = Except.error DequeError.usizeUnderflow := by
    simp [PyDeque.index, h]
  exact ⟨he, by simp [he]⟩

/-- Witness for C9 at the deque `[1, 2]`, `start = 2`, `stop = 1`. -/
theorem c9_index_stop_lt_start_underflows_witness :
    1 < 2 ∧
      ((PyDeque.mk ([1, 2] : List Nat) none).index 1 (some 2) (some 1)
          = Except.error DequeError.usizeUnderflow ∧
        (PyDeque.mk ([1, 2] : List Nat) none).index 1 (some 2) (some 1)
          ≠ Except.error DequeError.notInDeque) :=
  ⟨by decide, c9_index_stop_lt_start_underflows (PyDeque.mk [1, 2] none) 1 2 1 (by decide)⟩

/-- C8: `insert` with a non-negative index on an empty deque that is not at
capacity reaches the unguarded `usize` subtraction `deque.len() - 1` with
`len = 0`: in the total embedding the underflow error branch is taken, so no
element is inserted at position `0`. -/
theorem c8_insert_empty_underflows {α : Type} (idx : Int) (x : α) (b : Option Nat)
    (h0 : 0 ≤ idx) (hb : b ≠ some 0) :
    (PyDeque.mk ([] : List α) b).insert idx x = Except.error DequeError.usizeUnderflow := by
  have hres : resolveInsertIdx 0 idx = Except.error DequeError.usizeUnderflow := by
    unfold resolveInsertIdx
    rw [if_neg (by omega), if_pos (by omega), if_pos rfl]
  cases b with
  | none =>
      simp only [PyDeque.insert, List.length_nil]
      rw [hres]
      rfl
  | some m =>
      have hm : ¬ (0 = m) := fun h => hb (by rw [h])
      simp only [PyDeque.insert, List.length_nil, if_neg hm]
      rw [hres]
      rfl

/-- Witness for C8 at `idx = 3`, `x = 9`, no bound. -/
theorem c8_insert_empty_underflows_witness :
    (0 : Int) ≤ 3 ∧ (none : Option Nat) ≠ some 0 ∧
      (PyDeque.mk ([] : List Nat) none).insert 3 9
        = Except.error DequeError.usizeUnderflow :=
  ⟨by decide, by simp, c8_insert_empty_underflows 3 9 none (by decide) (by simp)⟩

/-- C2 counterexample: a deque with bound `b = 0` already has length equal to
its bound, yet `append` evicts nothing (the `pop_front` is a no-op on the
empty sequence) and grows the deque to length `1 ≠ b`, contradicting
"first removes exactly one element from the head and then adds `x`". -/
theorem c2_counterexample_bound_zero :
    ((PyDeque.mk ([] : List Nat) (some 0)).append 7).deque = [7] ∧
    ((PyDeque.mk ([] : List Nat) (some 0)).append 7).deque.length ≠ 0 := by
  decide

/-- C2 (amended to bounds `b ≥ 1`): a deque at capacity `b = rest.length + 1`
evicts exactly one element from the opposite end before inserting — `append`
drops the head, `appendleft` drops the tail, both keeping the length at `b` —
while a deque strictly below capacity (`b = l.length + k + 1`) evicts
nothing; pushes are total (never fail).  The concrete scenario: pushing
`1, 2, 3, 4` at the tail of an initially empty bound-3 deque yields
`[2, 3, 4]`, and `appendleft 0` on a full `[2, 3, 4]` bound-3 deque yields
`[0, 2, 3]`. -/
theorem c2_saturated_push_evicts_opposite_end {α : Type} (a x : α) (rest l : List α)
    (k : Nat) :
    ((PyDeque.mk (a :: rest) (some (rest.length + 1))).append x).deque = rest ++ [x] ∧
    ((PyDeque.mk (a :: rest) (some (rest.length + 1))).append x).deque.length
      = rest.length + 1 ∧
    ((PyDeque.mk (a :: rest) (some (rest.length + 1))).appendleft x).deque
      = x :: (a :: rest).dropLast ∧
    ((PyDeque.mk (a :: rest) (some (rest.length + 1))).appendleft x).deque.length
      = rest.length + 1 ∧
    ((PyDeque.mk l (some (l.length + k + 1))).append x).deque = l ++ [x] ∧
    ((PyDeque.mk l (some (l.length + k + 1))).appendleft x).deque = x :: l ∧
    (PyDeque.applyPushes (PyDeque.new (some ([] : List Nat)) (some (some 3)))
      [PushOp.append 1, PushOp.append 2, PushOp.append 3, PushOp.append 4]).deque
      = [2, 3, 4] ∧
    ((PyDeque.mk ([2, 3, 4] : List Nat) (some 3)).appendleft 0).deque = [0, 2, 3] := by
  refine ⟨?_, ?_, ?_, ?_, ?_, ?_, by decide, by decide⟩
  · simp [PyDeque.append]
  · simp [PyDeque.append]
  · simp [PyDeque.appendleft]
  · simp [PyDeque.appendleft]
  · simp only [PyDeque.append]
    rw [if_neg (by omega)]
  · simp only [PyDeque.appendleft]
    rw [if_neg (by omega)]

/-- Pushing preserves the bound field. -/
theorem applyPush_maxlen {α : Type} (d : PyDeque α) (op : PushOp α) :
    (d.applyPush op).maxlen = d.maxlen := by
  cases op <;> rfl

/-- `append` keeps the length within a positive bound `b` when it starts
within `b`. -/
theorem append_length_le {α : Type} {b : Nat} (d : PyDeque α) (x : α)
    (hb : 1 ≤ b) (hm : d.maxlen = some b) (hlen : d.deque.length ≤ b) :
    (d.append x).deque.length ≤ b := by
  simp only [PyDeque.append, hm]
  by_cases h : d.deque.length = b
  · rw [if_pos h]
    simp [List.length_tail]
    omega
  · rw [if_neg h]
    simp
    omega

/-- `appendleft` keeps the length within a positive bound `b` when it starts
within `b`. -/
theorem appendleft_length_le {α : Type} {b : Nat} (d : PyDeque α) (x : α)
    (hb : 1 ≤ b) (hm : d.maxlen = some b) (hlen : d.deque.length ≤ b) :
    (d.appendleft x).deque.length ≤ b := by
  simp only [PyDeque.appendleft, hm]
  by_cases h : d.deque.length = b
  · rw [if_pos h]
    simp [List.length_dropLast]
    omega
  · rw [if_neg h]
    simp
    omega

/-- C1 counterexample: the bound is not re-established once the length
exceeds it.  A deque constructed from the 4-element source `[1, 2, 3, 4]`
with bound `2` (construction does not truncate) grows to length `5 > 2` on
`append`, and even a deque that starts empty with bound `0` grows to length
`1 > 0`, because eviction only fires when `length` equals the bound exactly
(and `pop_front` on an empty sequence removes nothing). -/
theorem c1_counterexample_bound_exceeded :
    ((PyDeque.new (some ([1, 2, 3, 4] : List Nat)) (some (some 2))).applyPushes
        [PushOp.append 5]).deque.length > 2 ∧
    ((PyDeque.new (some ([] : List Nat)) (some (some 0))).applyPushes
        [PushOp.append 5]).deque.length > 0 := by
  decide

/-- C1 (amended): for every deque with bound `b ≥ 1` whose current length is
at most `b`, any sequence of `append`/`appendleft` operations keeps the
length at most `b`.  (A deque pre-populated past its bound, or one with
bound `0`, can exceed the bound: see the counterexample.) -/
theorem c1_bounded_length_invariant {α : Type} (b : Nat) (d : PyDeque α)
    (ops : List (PushOp α)) (hb : 1 ≤ b) (hm : d.maxlen = some b)
    (hlen : d.deque.length ≤ b) :
    (d.applyPushes ops).deque.length ≤ b := by
  induction ops generalizing d with
  | nil => exact hlen
  | cons op ops ih =>
      have hstep : (d.applyPush op).deque.length ≤ b := by
        cases op with
        | append x => exact append_length_le d x hb hm hlen
        | appendleft x => exact appendleft_length_le d x hb hm hlen
      have hm' : (d.applyPush op).maxlen = some b := by
        rw [applyPush_maxlen, hm]
      exact ih (d.applyPush op) hm' hstep

/-- Witness for C1 at bound `2`, the one-element deque `[9]` and three
pushes. -/
theorem c1_bounded_length_invariant_witness :
    1 ≤ 2 ∧ (PyDeque.mk ([9] : List Nat) (some 2)).maxlen = some 2 ∧
      (PyDeque.mk ([9] : List Nat) (some 2)).deque.length ≤ 2 ∧
      ((PyDeque.mk ([9] : List Nat) (some 2)).applyPushes
          [PushOp.append 1, PushOp.appendleft 2, PushOp.append 3]).deque.length ≤ 2 :=
  ⟨by decide, rfl, by decide,
    c1_bounded_length_invariant 2 (PyDeque.mk [9] (some 2))
      [PushOp.append 1, PushOp.appendleft 2, PushOp.append 3]
      (by decide) rfl (by decide)⟩

/-- When the capacity check passes and the index resolves to `i`, `insert`
inserts at position `i`. -/
theorem insert_eq_of_resolve {α : Type} (d : PyDeque α) (idx : Int) (x : α) (i : Nat)
    (hcap : d.maxlen ≠ some d.deque.length)
    (hres : resolveInsertIdx d.deque.length idx = Except.ok i) :
    d.insert idx x = Except.ok { d with deque := d.deque.insertIdx i x } := by
  cases hml : d.maxlen with
  | none =>
      simp only [PyDeque.insert, hml]
      rw [hres]
      rfl
  | some m =>
      have hne : ¬ (d.deque.length = m) := by
        intro h
        exact hcap (by rw [hml, h])
      simp only [PyDeque.insert, hml, if_neg hne]
      rw [hres]
      rfl

/-- C4 counterexample: on an empty deque below its capacity, a non-negative
index does not resolve to a valid clamped position: the `length - 1` clamp
underflows (error branch), so nothing is inserted. -/
theorem c4_counterexample_empty_deque :
    (PyDeque.mk ([] : List Nat) (some 5)).insert 0 7
      = Except.error DequeError.usizeUnderflow := by
  rfl

/-- C4 (amended to non-empty deques): for every non-empty deque below its
capacity, `insert idx x` resolves the signed index as the claim states: a
negative `idx` whose magnitude exceeds the length clamps to position `0`, an
in-range negative `idx` counts from the tail (position `length - |idx|`), a
non-negative `idx` at or past the length clamps to `length - 1` (just before
the current last element), and an in-range non-negative `idx` is used as is;
concretely, `insert (-100) 7` on the 3-element deque `[10, 20, 30]` inserts
at position `0` and `insert 100 7` inserts at position `2 = length - 1`. -/
theorem c4_insert_index_clamping {α : Type} (l : List α) (m : Option Nat)
    (idx : Int) (x : α) (hcap : m ≠ some l.length) (hne : l ≠ []) :
    (idx < 0 → l.length < (-idx).toNat →
        (PyDeque.mk l m).insert idx x = Except.ok (PyDeque.mk (x :: l) m)) ∧
    (idx < 0 → (-idx).toNat ≤ l.length →
        (PyDeque.mk l m).insert idx x
          = Except.ok (PyDeque.mk (l.insertIdx (l.length - (-idx).toNat) x) m)) ∧
    (0 ≤ idx → l.length ≤ idx.toNat →
        (PyDeque.mk l m).insert idx x
          = Except.ok (PyDeque.mk (l.insertIdx (l.length - 1) x) m)) ∧
    (0 ≤ idx → idx.toNat < l.length →
        (PyDeque.mk l m).insert idx x
          = Except.ok (PyDeque.mk (l.insertIdx idx.toNat x) m)) ∧
    (PyDeque.mk ([10, 20, 30] : List Nat) (some 5)).insert (-100) 7
      = Except.ok (PyDeque.mk [7, 10, 20, 30] (some 5)) ∧
    (PyDeque.mk ([10, 20, 30] : List Nat) (some 5)).insert 100 7
      = Except.ok (PyDeque.mk [10, 20, 7, 30] (some 5)) := by
  have hlen0 : l.length ≠ 0 := fun h => hne (List.length_eq_zero.mp h)
  refine ⟨?_, ?_, ?_, ?_, by rfl, by rfl⟩
  · intro h1 h2
    have hres : resolveInsertIdx l.length idx = Except.ok 0 := by
      unfold resolveInsertIdx
      rw [if_pos h1, if_pos (by omega)]
    have h := insert_eq_of_resolve (PyDeque.mk l m) idx x 0 hcap hres
    rw [h]
    simp [List.insertIdx]
  · intro h1 h2
    have hres : resolveInsertIdx l.length idx
        = Except.ok (l.length - (-idx).toNat) := by
      unfold resolveInsertIdx
      rw [if_pos h1, if_neg (by omega)]
    exact insert_eq_of_resolve (PyDeque.mk l m) idx x _ hcap hres
  · intro h1 h2
    have hres : resolveInsertIdx l.length idx = Except.ok (l.length - 1) := by
      unfold resolveInsertIdx
      rw [if_neg (by omega), if_pos (by omega), if_neg hlen0]
    exact insert_eq_of_resolve (PyDeque.mk l m) idx x _ hcap hres
  · intro h1 h2
    have hres : resolveInsertIdx l.length idx = Except.ok idx.toNat := by
      unfold resolveInsertIdx
      rw [if_neg (by omega), if_neg (by omega)]
    exact insert_eq_of_resolve (PyDeque.mk l m) idx x _ hcap hres

/-- Witness for C4 at the deque `[4, 5, 6]` (no bound), `idx = 100`,
`x = 9`. -/
theorem c4_insert_index_clamping_witness :
    ((none : Option Nat) ≠ some ([4, 5, 6] : List Nat).length) ∧
    (([4, 5, 6] : List Nat) ≠ []) ∧
    (((100 : Int) < 0 → ([4, 5, 6] : List Nat).length < (-(100 : Int)).toNat →
        (PyDeque.mk ([4, 5, 6] : List Nat) none).insert 100 9
          = Except.ok (PyDeque.mk (9 :: [4, 5, 6]) none)) ∧
      ((100 : Int) < 0 → (-(100 : Int)).toNat ≤ ([4, 5, 6] : List Nat).length →
        (PyDeque.mk ([4, 5, 6] : List Nat) none).insert 100 9
          = Except.ok (PyDeque.mk (([4, 5, 6] : List Nat).insertIdx
              (([4, 5, 6] : List Nat).length - (-(100 : Int)).toNat) 9) none)) ∧
      ((0 : Int) ≤ 100 → ([4, 5, 6] : List Nat).length ≤ (100 : Int).toNat →
        (PyDeque.mk ([4, 5, 6] : List Nat) none).insert 100 9
          = Except.ok (PyDeque.mk (([4, 5, 6] : List Nat).insertIdx
              (([4, 5, 6] : List Nat).length - 1) 9) none)) ∧
      ((0 : Int) ≤ 100 → (100 : Int).toNat < ([4, 5, 6] : List Nat).length →
        (PyDeque.mk ([4, 5, 6] : List Nat) none).insert 100 9
          = Except.ok (PyDeque.mk (([4, 5, 6] : List Nat).insertIdx
              ((100 : Int).toNat) 9) none)) ∧
      (PyDeque.mk ([10, 20, 30] : List Nat) (some 5)).insert (-100) 7
        = Except.ok (PyDeque.mk [7, 10, 20, 30] (some 5)) ∧
      (PyDeque.mk ([10, 20, 30] : List Nat) (some 5)).insert 100 7
        = Except.ok (PyDeque.mk [10, 20, 7, 30] (some 5))) :=
  ⟨by decide, by decide,
    c4_insert_index_clamping [4, 5, 6] none 100 9 (by decide) (by decide)⟩

/-- A pop-front/push-back move undoes a pop-back/push-front move. -/
theorem rotateLeftOnce_rotateRightOnce {α : Type} (l : List α) :
    rotateLeftOnce (rotateRightOnce l) = l := by
  rcases l.eq_nil_or_concat with h | ⟨l', a, h⟩
  · subst h
    rfl
  · subst h
    simp [PyDeque.rotateRightOnce, List.getLast?_concat, List.dropLast_concat,
      PyDeque.rotateLeftOnce]

/-- A pop-back/push-front move undoes a pop-front/push-back move. -/
theorem rotateRightOnce_rotateLeftOnce {α : Type} (l : List α) :
    rotateRightOnce (rotateLeftOnce l) = l := by
  cases l with
  | nil => rfl
  | cons a rest =>
      simp [PyDeque.rotateLeftOnce, PyDeque.rotateRightOnce, List.getLast?_concat,
        List.dropLast_concat]

/-- Iterated version: `n` left moves undo `n` right moves. -/
theorem rotateLeft_iterate_rotateRight_iterate {α : Type} (n : Nat) (l : List α) :
    rotateLeftOnce^[n] (rotateRightOnce^[n] l) = l :=
  Function.LeftInverse.iterate rotateLeftOnce_rotateRightOnce n l

/-- Iterated version: `n` right moves undo `n` left moves. -/
theorem rotateRight_iterate_rotateLeft_iterate {α : Type} (n : Nat) (l : List α) :
    rotateRightOnce^[n] (rotateLeftOnce^[n] l) = l :=
  Function.LeftInverse.iterate rotateRightOnce_rotateLeftOnce n l

/-- `rotate` never changes the bound. -/
theorem rotate_maxlen {α : Type} (d : PyDeque α) (mid : Option Int) :
    (d.rotate mid).maxlen = d.maxlen := by
  simp only [PyDeque.rotate]
  split <;> rfl

/-- The element sequence produced by `rotate` with an explicit amount. -/
theorem rotate_deque {α : Type} (d : PyDeque α) (mid : Int) :
    (d.rotate (some mid)).deque =
      if mid < 0 then rotateLeftOnce^[(-mid).toNat] d.deque
      else rotateRightOnce^[mid.toNat] d.deque := by
  simp only [PyDeque.rotate, Option.getD_some]
  by_cases h : mid < 0
  · rw [if_pos h, if_pos h]
  · rw [if_neg h, if_neg h]

/-- C6: for every deque (any length, including 0 and 1) and every integer
`n`, `rotate n` followed by `rotate (-n)` restores the original deque. -/
theorem c6_rotate_then_rotate_neg {α : Type} (d : PyDeque α) (n : Int) :
    (d.rotate (some n)).rotate (some (-n)) = d := by
  have hml : ((d.rotate (some n)).rotate (some (-n))).maxlen = d.maxlen := by
    rw [rotate_maxlen, rotate_maxlen]
  have hdq : ((d.rotate (some n)).rotate (some (-n))).deque = d.deque := by
    rw [rotate_deque, rotate_deque]
    rcases lt_trichotomy n 0 with hn | hn | hn
    · rw [if_pos (show n < 0 from hn), if_neg (show ¬ (-n : Int) < 0 by omega)]
      exact rotateRight_iterate_rotateLeft_iterate ((-n).toNat) d.deque
    · subst hn
      simp
    · rw [if_neg (show ¬ (n : Int) < 0 by omega),
        if_pos (show (-n : Int) < 0 by omega), neg_neg]
      exact rotateLeft_iterate_rotateRight_iterate (n.toNat) d.deque
  exact PyDeque.ext hdq hml

end RustPythonCollections
